import Mathlib

/-
Verification of the IDeviceLocationChanger motion-simulation core.

The definitions below are shallow embeddings of the Python sources:
  * coordinate_utils.py   (Haversine distance, bearing, projection)
  * cruise_service.py     (per-device cruise sessions and the tick loop)
  * event_bus.py          (bounded-queue pub/sub fan-out)
  * route_service.py      (route building and the point-pair sequencer)
Floats are modelled as real numbers; the per-device dictionaries are
association lists; external collaborators (the position sink and the
routing provider) are explicit parameters.
-/

namespace IDevLoc

noncomputable section

open Real

/-- math.radians: degrees to radians. -/
def radians (x : ℝ) : ℝ := x * π / 180

/-- math.degrees: radians to degrees. -/
def degrees (x : ℝ) : ℝ := x * 180 / π

/-- math.atan2 (two-argument arctangent), with atan2 0 0 = 0 as in CPython. -/
def atan2 (y x : ℝ) : ℝ :=
  if 0 < x then Real.arctan (y / x)
  else if x < 0 ∧ 0 ≤ y then Real.arctan (y / x) + π
  else if x < 0 ∧ y < 0 then Real.arctan (y / x) - π
  else if x = 0 ∧ 0 < y then π / 2
  else if x = 0 ∧ y < 0 then -(π / 2)
  else 0

/-- EARTH_RADIUS_KM from coordinate_utils.py. -/
def EARTH_RADIUS_KM : ℝ := 6371

/-- distance_between from coordinate_utils.py: Haversine great-circle distance. -/
def distance_between (lat1 lon1 lat2 lon2 : ℝ) : ℝ :=
  let lat1_rad := radians lat1
  let lat2_rad := radians lat2
  let d_lat := radians (lat2 - lat1)
  let d_lon := radians (lon2 - lon1)
  let a := Real.sin (d_lat / 2) * Real.sin (d_lat / 2) +
    Real.cos lat1_rad * Real.cos lat2_rad *
    Real.sin (d_lon / 2) * Real.sin (d_lon / 2)
  let c := 2 * atan2 (Real.sqrt a) (Real.sqrt (1 - a))
  EARTH_RADIUS_KM * c

/-- bearing_to from coordinate_utils.py: initial bearing in degrees [0, 360). -/
def bearing_to (lat1 lon1 lat2 lon2 : ℝ) : ℝ :=
  let lat1_rad := radians lat1
  let lat2_rad := radians lat2
  let d_lon := radians (lon2 - lon1)
  let y := Real.sin d_lon * Real.cos lat2_rad
  let x := Real.cos lat1_rad * Real.sin lat2_rad -
    Real.sin lat1_rad * Real.cos lat2_rad * Real.cos d_lon
  let bearing := degrees (atan2 y x)
  (bearing + 360) - 360 * ⌊(bearing + 360) / 360⌋

/-- move_location from coordinate_utils.py: position after moving along a
bearing at constant speed for a duration. -/
def move_location (lat lon bearing_degrees speed_kmh duration_seconds : ℝ) :
    ℝ × ℝ :=
  let lat_rad := radians lat
  let lon_rad := radians lon
  let bearing_rad := radians bearing_degrees
  let speed_mps := speed_kmh * 1000 / 3600
  let distance_km := speed_mps * duration_seconds / 1000
  let angular_distance := distance_km / EARTH_RADIUS_KM
  let new_lat_rad := Real.arcsin
    (Real.sin lat_rad * Real.cos angular_distance +
     Real.cos lat_rad * Real.sin angular_distance * Real.cos bearing_rad)
  let new_lon_rad := lon_rad + atan2
    (Real.sin bearing_rad * Real.sin angular_distance * Real.cos lat_rad)
    (Real.cos angular_distance - Real.sin lat_rad * Real.sin new_lat_rad)
  (degrees new_lat_rad, degrees new_lon_rad)

/-- Modelled from the spec: `arrivalThreshold(speedKmh) = max(speedKmh / 720000,
1e-6)` km. The function `arrival_threshold_km` belongs to the current
`backend/services/cruise_service.py`, which is absent from the sources here;
its callers (`route_service.py`) and its unit tests (`test_route_speed.py`)
are present and agree with this formula. -/
def arrival_threshold_km (speed_kmh : ℝ) : ℝ :=
  max (speed_kmh / 720000) 0.000001

/-- Legacy fixed threshold constant from the stale cruise_service.py copy. -/
def ARRIVAL_THRESHOLD_KM : ℝ := 0.005

theorem atan2_zero_of_nonneg {x : ℝ} (hx : 0 ≤ x) : atan2 0 x = 0 := by
  unfold atan2
  rcases hx.lt_or_eq with h | h
  · rw [if_pos h, zero_div, Real.arctan_zero]
  · subst h
    norm_num

theorem distance_between_self (lat lon : ℝ) :
    distance_between lat lon lat lon = 0 := by
  simp only [distance_between, radians, sub_self, zero_mul, zero_div,
    Real.sin_zero, mul_zero, zero_add, add_zero, sub_zero, Real.sqrt_zero,
    Real.sqrt_one]
  rw [atan2_zero_of_nonneg (by norm_num)]
  ring

theorem arrival_threshold_pos (v : ℝ) : 0 < arrival_threshold_km v :=
  lt_of_lt_of_le (by norm_num) (le_max_right _ _)

theorem degrees_radians (x : ℝ) : degrees (radians x) = x := by
  unfold degrees radians
  field_simp

/-- C9: for every position with latitude in [-90, 90] and every bearing and
speed, projecting for a zero duration returns the position unchanged. -/
theorem move_location_zero_duration (lat lon bearing speed : ℝ)
    (h1 : -90 ≤ lat) (h2 : lat ≤ 90) :
    move_location lat lon bearing speed 0 = (lat, lon) := by
  have hl : -(π / 2) ≤ radians lat := by
    have h := mul_nonneg (show (0:ℝ) ≤ lat + 90 by linarith)
      (show (0:ℝ) ≤ π / 180 by positivity)
    unfold radians; nlinarith [h]
  have hu : radians lat ≤ π / 2 := by
    have h := mul_nonneg (show (0:ℝ) ≤ 90 - lat by linarith)
      (show (0:ℝ) ≤ π / 180 by positivity)
    unfold radians; nlinarith [h]
  have hs : 0 ≤ 1 - Real.sin (radians lat) * Real.sin (radians lat) := by
    have h := Real.sin_sq_le_one (radians lat)
    nlinarith [h]
  unfold move_location
  simp only [mul_zero, zero_mul, zero_div, Real.cos_zero, Real.sin_zero,
    mul_one, add_zero, Real.arcsin_sin hl hu, atan2_zero_of_nonneg hs,
    degrees_radians]

/-- Witness for move_location_zero_duration at a concrete position. -/
theorem move_location_zero_duration_witness :
    (-90 : ℝ) ≤ 25 ∧ (25 : ℝ) ≤ 90 ∧
    move_location 25 121.5 45 50 0 = (25, 121.5) :=
  ⟨by norm_num, by norm_num,
    move_location_zero_duration 25 121.5 45 50 (by norm_num) (by norm_num)⟩

/-- CruiseState from cruise_service.py. -/
inductive CruiseState
  | idle
  | running
  | paused
  | arrived
  | stopped
  deriving DecidableEq

/-- CruiseSession from cruise_service.py (wall-clock fields and the thread
handle are omitted; elapsed time is passed to the tick explicitly). -/
structure CruiseSession where
  device_id : String
  start_lat : ℝ
  start_lon : ℝ
  target_lat : ℝ
  target_lon : ℝ
  speed_kmh : ℝ
  state : CruiseState
  current_lat : ℝ
  current_lon : ℝ
  distance_traveled_km : ℝ

/-- The per-device session dictionary, as an association list. -/
def CruiseReg : Type := List (String × CruiseSession)

/-- Dictionary lookup self._sessions.get(device_id). -/
def lookupSession (reg : CruiseReg) (d : String) : Option CruiseSession :=
  List.lookup d reg

/-- Dictionary removal (del / .pop(device_id, None)). -/
def removeSession (reg : CruiseReg) (d : String) : CruiseReg :=
  List.filter (fun p => p.1 != d) reg

/-- Result of start_cruise: a session snapshot or a tagged failure. -/
inductive StartResult
  | ok (s : CruiseSession)
  | error (msg : String)

/-- The session built by start_cruise: current position initialised to the
start, distance zero, state set to RUNNING before the thread starts. -/
def new_session (d : String) (slat slon tlat tlon v : ℝ) : CruiseSession :=
  ⟨d, slat, slon, tlat, tlon, v, .running, slat, slon, 0⟩

/-- start_cruise from cruise_service.py. It first pops any existing session
for the device (signalling its stop event), then validates the location
callback and the already-at-target condition, and only on success builds and
registers a RUNNING session. The arrival check uses the speed-scaled
threshold of the current backend cruise service (see arrival_threshold_km). -/
def start_cruise (reg : CruiseReg) (configured : Bool) (d : String)
    (slat slon tlat tlon v : ℝ) : StartResult × CruiseReg :=
  let reg1 := removeSession reg d
  if !configured then (.error "Location callback not configured", reg1)
  else if distance_between slat slon tlat tlon < arrival_threshold_km v then
    (.error "Already at target location", reg1)
  else
    let s := new_session d slat slon tlat tlon v
    (.ok s, (d, s) :: reg1)

/-- Events emitted from within the cruise tick loop. -/
inductive CruiseEvent
  | cruiseUpdate (s : CruiseSession)
  | cruiseArrived (deviceId : String) (lat lon distanceTraveledKm : ℝ)

/-- What a single tick-loop iteration decides. -/
inductive TickOutcome
  | skipped
  | halted
  | arrivedOwnedByCaller
  | arrivedRemoved
  | movedOn
  deriving DecidableEq

/-- One iteration of _cruise_loop from cruise_service.py, after the jittered
wait: skip when paused, break when not running, otherwise test the remaining
distance against the arrival threshold; on arrival snap to the target and
either hand the session to the registered arrival callback or remove it and
emit cruiseArrived; otherwise project the new position and emit an update.
The position-sink call is external and not modelled. -/
def cruise_tick (reg : CruiseReg) (hasCallback : Bool) (s : CruiseSession)
    (dt : ℝ) : CruiseSession × CruiseReg × List CruiseEvent × TickOutcome :=
  if s.state = .paused then (s, reg, [], .skipped)
  else if s.state ≠ .running then (s, reg, [], .halted)
  else
    let dist := distance_between s.current_lat s.current_lon
      s.target_lat s.target_lon
    if dist < arrival_threshold_km s.speed_kmh then
      let s1 := {s with current_lat := s.target_lat,
                        current_lon := s.target_lon}
      if hasCallback then
        ({s1 with state := .arrived}, reg, [], .arrivedOwnedByCaller)
      else
        ({s1 with state := .arrived}, removeSession reg s.device_id,
         [.cruiseArrived s.device_id s1.current_lat s1.current_lon
            s1.distance_traveled_km],
         .arrivedRemoved)
    else
      let brg := bearing_to s.current_lat s.current_lon
        s.target_lat s.target_lon
      let np := move_location s.current_lat s.current_lon brg s.speed_kmh dt
      let step := distance_between s.current_lat s.current_lon np.1 np.2
      let s2 := {s with distance_traveled_km := s.distance_traveled_km + step,
                        current_lat := np.1, current_lon := np.2}
      (s2, reg, [.cruiseUpdate s2], .movedOn)

/-- The state part of get_cruise_status from cruise_service.py. -/
inductive CruiseStatus
  | idle (deviceId : String)
  | active (s : CruiseSession)

/-- get_cruise_status: idle when no session is registered. -/
def get_cruise_status (reg : CruiseReg) (d : String) : CruiseStatus :=
  match lookupSession reg d with
  | none => .idle d
  | some s => .active s

theorem lookup_removeSession (reg : CruiseReg) (d : String) :
    lookupSession (removeSession reg d) d = none := by
  induction reg with
  | nil => rfl
  | cons p t ih =>
    obtain ⟨k, v⟩ := p
    by_cases h : k = d
    · simpa [removeSession, lookupSession, List.filter, h] using ih
    · have hne : (k != d) = true := by simpa using h
      have hdk : (d == k) = false := by simpa using Ne.symm h
      simp only [removeSession, List.filter, hne] at *
      simp only [lookupSession, List.lookup, hdk] at *
      exact ih

/-- A concrete running session already standing at its target. -/
def sampleArrivedSession : CruiseSession :=
  ⟨"dev", 25, 121.5, 25, 121.5, 10, .running, 25, 121.5, 0⟩

/-- C3: with the location callback configured, start_cruise fails with the
tagged "Already at target location" error exactly when the start-to-target
distance is below the speed-scaled arrival threshold; in particular it fails
whenever start equals target, and otherwise it returns (and registers) a new
RUNNING session snapshot. -/
theorem start_cruise_already_at_target (reg : CruiseReg) (d : String)
    (slat slon tlat tlon v : ℝ) :
    (((start_cruise reg true d slat slon tlat tlon v).1
        = StartResult.error "Already at target location")
      ↔ distance_between slat slon tlat tlon < arrival_threshold_km v)
    ∧ (slat = tlat → slon = tlon →
        (start_cruise reg true d slat slon tlat tlon v).1
          = StartResult.error "Already at target location")
    ∧ (¬ distance_between slat slon tlat tlon < arrival_threshold_km v →
        (start_cruise reg true d slat slon tlat tlon v)
          = (StartResult.ok (new_session d slat slon tlat tlon v),
             (d, new_session d slat slon tlat tlon v) :: removeSession reg d)
        ∧ (new_session d slat slon tlat tlon v).state = CruiseState.running) := by
  refine ⟨?_, ?_, ?_⟩
  · by_cases hd : distance_between slat slon tlat tlon < arrival_threshold_km v
    · simp [start_cruise, hd]
    · simp [start_cruise, hd]
  · intro h1 h2
    subst h1; subst h2
    have hd : distance_between slat slon slat slon < arrival_threshold_km v := by
      rw [distance_between_self]; exact arrival_threshold_pos v
    simp [start_cruise, hd]
  · intro hd
    exact ⟨by simp [start_cruise, hd], rfl⟩

/-- Witness: starting exactly at the target fails with the tagged error. -/
theorem start_cruise_already_at_target_witness :
    (start_cruise [] true "dev" 25 121.5 25 121.5 10).1
      = StartResult.error "Already at target location" :=
  (start_cruise_already_at_target [] "dev" 25 121.5 25 121.5 10).2.1 rfl rfl

/-- C1: the arrival threshold is speed-scaled, max(speed / 720000, 1e-6) km,
with the 1 mm floor at zero and negative speeds, and both the
already-at-target validation in start_cruise and the per-tick arrival test
compare the remaining distance against this threshold at the session's
current speed. -/
theorem arrival_threshold_speed_scaled :
    (∀ v : ℝ, arrival_threshold_km v = max (v / 720000) 0.000001)
    ∧ arrival_threshold_km 0 = 0.000001
    ∧ arrival_threshold_km (-10) = 0.000001
    ∧ (∀ (reg : CruiseReg) (d : String) (slat slon tlat tlon v : ℝ),
        ((start_cruise reg true d slat slon tlat tlon v).1
            = StartResult.error "Already at target location")
          ↔ distance_between slat slon tlat tlon < arrival_threshold_km v)
    ∧ (∀ (reg : CruiseReg) (hcb : Bool) (s : CruiseSession) (dt : ℝ),
        s.state = CruiseState.running →
        (((cruise_tick reg hcb s dt).2.2.2 = TickOutcome.arrivedOwnedByCaller
            ∨ (cruise_tick reg hcb s dt).2.2.2 = TickOutcome.arrivedRemoved)
          ↔ distance_between s.current_lat s.current_lon s.target_lat
              s.target_lon < arrival_threshold_km s.speed_kmh)) := by
  refine ⟨fun v => rfl, ?_, ?_, ?_, ?_⟩
  · unfold arrival_threshold_km
    rw [zero_div]
    exact max_eq_right (by norm_num)
  · unfold arrival_threshold_km
    exact max_eq_right (by norm_num)
  · intro reg d slat slon tlat tlon v
    by_cases hd : distance_between slat slon tlat tlon < arrival_threshold_km v
    · simp [start_cruise, hd]
    · simp [start_cruise, hd]
  · intro reg hcb s dt h
    by_cases hd : distance_between s.current_lat s.current_lon s.target_lat
        s.target_lon < arrival_threshold_km s.speed_kmh
    · cases hcb <;> simp [cruise_tick, h, hd]
    · cases hcb <;> simp [cruise_tick, h, hd]

/-- Witness: the floor value at speed 0, and the tick arrival test firing for
a concrete session standing at its target. -/
theorem arrival_threshold_speed_scaled_witness :
    arrival_threshold_km 0 = 0.000001
    ∧ ((cruise_tick [] false sampleArrivedSession 0.1).2.2.2
          = TickOutcome.arrivedOwnedByCaller
        ∨ (cruise_tick [] false sampleArrivedSession 0.1).2.2.2
          = TickOutcome.arrivedRemoved) := by
  refine ⟨arrival_threshold_speed_scaled.2.1, ?_⟩
  apply (arrival_threshold_speed_scaled.2.2.2.2 [] false
    sampleArrivedSession 0.1 rfl).mpr
  show distance_between 25 121.5 25 121.5 < arrival_threshold_km 10
  rw [distance_between_self]
  exact arrival_threshold_pos 10

/-- C4: when a running session arrives with no arrival callback registered,
the tick emits cruiseArrived as its only (terminal) event, removes the
session from the registry, and a subsequent status query reports idle. -/
theorem cruise_arrival_no_callback (reg : CruiseReg) (s : CruiseSession)
    (dt : ℝ) (hrun : s.state = CruiseState.running)
    (hdist : distance_between s.current_lat s.current_lon s.target_lat
      s.target_lon < arrival_threshold_km s.speed_kmh) :
    (cruise_tick reg false s dt).2.2.1
      = [CruiseEvent.cruiseArrived s.device_id s.target_lat s.target_lon
          s.distance_traveled_km]
    ∧ (cruise_tick reg false s dt).2.2.2 = TickOutcome.arrivedRemoved
    ∧ lookupSession (cruise_tick reg false s dt).2.1 s.device_id = none
    ∧ get_cruise_status (cruise_tick reg false s dt).2.1 s.device_id
        = CruiseStatus.idle s.device_id := by
  have hreg : (cruise_tick reg false s dt).2.1
      = removeSession reg s.device_id := by
    simp [cruise_tick, hrun, hdist]
  refine ⟨?_, ?_, ?_, ?_⟩
  · simp [cruise_tick, hrun, hdist]
  · simp [cruise_tick, hrun, hdist]
  · rw [hreg]; exact lookup_removeSession reg s.device_id
  · rw [hreg]; unfold get_cruise_status; rw [lookup_removeSession]

/-- Witness: a registered session at its target, no callback: after the tick
the status query for its device reports idle. -/
theorem cruise_arrival_no_callback_witness :
    get_cruise_status
      (cruise_tick [("dev", sampleArrivedSession)] false
        sampleArrivedSession 0.1).2.1 "dev"
      = CruiseStatus.idle "dev" := by
  have h := cruise_arrival_no_callback [("dev", sampleArrivedSession)]
    sampleArrivedSession 0.1 rfl (by
      show distance_between 25 121.5 25 121.5 < arrival_threshold_km 10
      rw [distance_between_self]
      exact arrival_threshold_pos 10)
  exact h.2.2.2

/-- C10: start_cruise is not atomic on failure: it removes (and signals) any
existing session for the device before validating, so when validation fails
- no location callback, or target within the arrival threshold - the
previous session is already destroyed and the registry holds no session for
the device. -/
theorem start_cruise_destroys_previous_on_failure (reg : CruiseReg)
    (configured : Bool) (d : String) (slat slon tlat tlon v : ℝ)
    (hprev : (lookupSession reg d).isSome = true)
    (hfail : configured = false
      ∨ distance_between slat slon tlat tlon < arrival_threshold_km v) :
    (∃ msg, (start_cruise reg configured d slat slon tlat tlon v).1
        = StartResult.error msg)
    ∧ (start_cruise reg configured d slat slon tlat tlon v).2
        = removeSession reg d
    ∧ lookupSession
        (start_cruise reg configured d slat slon tlat tlon v).2 d = none := by
  cases configured with
  | false =>
    exact ⟨⟨"Location callback not configured", by simp [start_cruise]⟩,
      by simp [start_cruise],
      by simp [start_cruise, lookup_removeSession]⟩
  | true =>
    have hd : distance_between slat slon tlat tlon < arrival_threshold_km v := by
      rcases hfail with hc | hd
      · exact absurd hc (by simp)
      · exact hd
    exact ⟨⟨"Already at target location", by simp [start_cruise, hd]⟩,
      by simp [start_cruise, hd],
      by simp [start_cruise, hd, lookup_removeSession]⟩

/-- Witness: an existing session is destroyed by a failing start_cruise. -/
theorem start_cruise_destroys_previous_on_failure_witness :
    (lookupSession [("dev", sampleArrivedSession)] "dev").isSome = true
    ∧ lookupSession
        (start_cruise [("dev", sampleArrivedSession)] false "dev"
          25 121.5 26 121.5 10).2 "dev" = none :=
  ⟨rfl, (start_cruise_destroys_previous_on_failure
      [("dev", sampleArrivedSession)] false "dev" 25 121.5 26 121.5 10
      rfl (Or.inl rfl)).2.2⟩

/-- A subscriber's bounded asyncio.Queue from event_bus.py: capacity and
current items. As in asyncio, a non-positive maxsize means unbounded. -/
structure SubQueue (E : Type) where
  maxsize : Int
  items : List E

/-- asyncio.Queue.full(): the queue has a positive maxsize and is at it. -/
def SubQueue.isFull {E : Type} (q : SubQueue E) : Bool :=
  decide (0 < q.maxsize) && decide (q.maxsize ≤ (q.items.length : Int))

/-- asyncio.Queue.put_nowait: none models the QueueFull exception. -/
def SubQueue.putNowait {E : Type} (q : SubQueue E) (e : E) :
    Option (SubQueue E) :=
  if q.isFull then none else some ⟨q.maxsize, q.items ++ [e]⟩

/-- Default per-subscriber capacity from EventBus.__init__. -/
def defaultMaxQueueSize : ℕ := 100

/-- EventBus.publish from event_bus.py: attempt a non-blocking enqueue on
every current subscriber queue; a full queue means the event is dropped for
that subscriber only; returns the updated queues and the delivered count. -/
def publish {E : Type} (e : E) : List (SubQueue E) → List (SubQueue E) × ℕ
  | [] => ([], 0)
  | q :: qs =>
    let r := publish e qs
    match q.putNowait e with
    | some q1 => (q1 :: r.1, r.2 + 1)
    | none => (q :: r.1, r.2)

/-- C8: publish keeps every subscriber, appends the event to exactly the
queues with free space, silently drops it for the full ones, counts the
deliveries, and the default capacity is 100. Never blocking is reflected by
putNowait, which returns immediately (none on a full queue). -/
theorem publish_drops_only_full_queues {E : Type} (e : E)
    (qs : List (SubQueue E)) :
    (publish e qs).1.length = qs.length
    ∧ (publish e qs).1 = qs.map (fun q =>
        if q.isFull then q else ⟨q.maxsize, q.items ++ [e]⟩)
    ∧ (publish e qs).2 = (qs.filter (fun q => !q.isFull)).length
    ∧ defaultMaxQueueSize = 100 := by
  induction qs with
  | nil => exact ⟨rfl, rfl, rfl, rfl⟩
  | cons q qs ih =>
    by_cases h : q.isFull
    · refine ⟨?_, ?_, ?_, rfl⟩ <;>
        simp [publish, SubQueue.putNowait, h, ih.1, ih.2.1, ih.2.2.1,
          List.filter]
    · refine ⟨?_, ?_, ?_, rfl⟩ <;>
        simp [publish, SubQueue.putNowait, h, ih.1, ih.2.1, ih.2.2.1,
          List.filter]

/-- RouteState from route_service.py. -/
inductive RouteState
  | idle
  | running
  | paused
  | arrived
  | stopped
  deriving DecidableEq

/-- Waypoint from route_service.py. -/
structure Waypoint where
  lat : ℝ
  lng : ℝ
  name : String

/-- RouteSegment from route_service.py. -/
structure RouteSegment where
  from_waypoint : ℕ
  to_waypoint : ℕ
  path : List (ℝ × ℝ)
  distance_km : ℝ
  is_closure : Bool
  is_fallback : Bool

/-- Route from route_service.py. -/
structure Route where
  waypoints : List Waypoint
  segments : List RouteSegment
  loop_mode : Bool
  total_distance_km : ℝ

/-- Result of BrouterService.get_route (external routing collaborator). -/
structure RouteResult where
  path : List (ℝ × ℝ)
  distance_km : ℝ
  is_fallback : Bool

/-- The routing collaborator as a function (deterministic oracle; the
reachability relation below quantifies over it at every step). -/
def GetRoute : Type := (ℝ × ℝ) → (ℝ × ℝ) → RouteResult

/-- Route() with dataclass defaults. -/
def emptyRoute : Route := ⟨[], [], false, 0⟩

/-- self._routes.get(device_id) followed by creation when absent. -/
def routeOf (o : Option Route) : Route := o.getD emptyRoute

/-- Python truthiness of `route.segments and route.segments[-1].is_closure`. -/
def segLastClosure (r : Route) : Bool :=
  match r.segments.getLast? with
  | some s => s.is_closure
  | none => false

/-- Route.recalculate_distance from route_service.py. -/
def recalculate_distance (r : Route) : Route :=
  {r with total_distance_km := (r.segments.map RouteSegment.distance_km).sum}

/-- The closure segment built by _add_closure_segment: a path from the last
waypoint back to waypoint 0, flagged is_closure. -/
def closure_of (g : GetRoute) (r : Route) : RouteSegment :=
  let last_wp := r.waypoints.getLastD ⟨0, 0, ""⟩
  let start_wp := r.waypoints.headD ⟨0, 0, ""⟩
  let res := g (last_wp.lat, last_wp.lng) (start_wp.lat, start_wp.lng)
  ⟨r.waypoints.length - 1, 0, res.path, res.distance_km, true, res.is_fallback⟩

/-- _add_closure_segment from route_service.py. -/
def add_closure_segment (g : GetRoute) (r : Route) : Route :=
  {r with segments := r.segments ++ [closure_of g r]}

/-- add_waypoint from route_service.py (events not modelled): the first
waypoint becomes START with no segment; later calls drop a stale closure
under loop mode, route a segment from the previous waypoint, append both,
recompute the closure under loop mode, and recalculate the distance. -/
def add_waypoint (g : GetRoute) (o : Option Route) (lat lng : ℝ) :
    Option Route :=
  let route := routeOf o
  if route.waypoints.length = 0 then
    some {route with waypoints := [⟨lat, lng, "START"⟩]}
  else
    let wp_index := route.waypoints.length
    let r1 := if route.loop_mode && segLastClosure route then
        {route with segments := route.segments.dropLast}
      else route
    let last_wp := r1.waypoints.getLastD ⟨0, 0, ""⟩
    let res := g (last_wp.lat, last_wp.lng) (lat, lng)
    let r2 := {r1 with
      waypoints := r1.waypoints ++ [⟨lat, lng, toString wp_index⟩],
      segments := r1.segments ++
        [⟨wp_index - 1, wp_index, res.path, res.distance_km, false,
          res.is_fallback⟩]}
    let r3 := if r2.loop_mode && decide (2 ≤ r2.waypoints.length) then
        add_closure_segment g r2
      else r2
    some (recalculate_distance r3)

/-- undo_waypoint from route_service.py: rejected without a route, with an
empty route, or while the route session is RUNNING; undoing the only (START)
waypoint clears the route; otherwise it drops a stale closure under loop
mode, removes the last waypoint and its incoming segment, recomputes the
closure under loop mode, and recalculates the distance. -/
def undo_waypoint (g : GetRoute) (sessionRunning : Bool) (o : Option Route) :
    Option Route :=
  match o with
  | none => none
  | some route =>
    if route.waypoints.length = 0 then some route
    else if sessionRunning then some route
    else if route.waypoints.length = 1 then none
    else
      let r1 := if route.loop_mode && segLastClosure route then
          {route with segments := route.segments.dropLast}
        else route
      let r2 := {r1 with waypoints := r1.waypoints.dropLast,
                         segments := r1.segments.dropLast}
      let r3 := if r2.loop_mode && decide (2 ≤ r2.waypoints.length) then
          add_closure_segment g r2
        else r2
      some (recalculate_distance r3)

/-- set_loop_mode from route_service.py: enabling adds a closure when at
least two waypoints exist and none is present; disabling removes the
trailing closure unless a RUNNING session's current segment index is at or
past the closure's index. The session argument carries (state, current
segment index) of self._sessions.get(device_id). -/
def set_loop_mode (g : GetRoute) (session : Option (RouteState × ℕ))
    (enabled : Bool) (o : Option Route) : Option Route :=
  let route := routeOf o
  let r0 := {route with loop_mode := enabled}
  let r1 :=
    if enabled then
      if decide (2 ≤ r0.waypoints.length) && !segLastClosure r0 then
        add_closure_segment g r0
      else r0
    else
      if segLastClosure r0 then
        let closure_index := r0.segments.length - 1
        let on_closure := match session with
          | some (st, idx) =>
              decide (st = RouteState.running) && decide (closure_index ≤ idx)
          | none => false
        if on_closure then r0
        else {r0 with segments := r0.segments.dropLast}
      else r0
  some (recalculate_distance r1)

theorem recalculate_distance_waypoints (r : Route) :
    (recalculate_distance r).waypoints = r.waypoints := rfl

theorem recalculate_distance_segments (r : Route) :
    (recalculate_distance r).segments = r.segments := rfl

theorem recalculate_distance_loop_mode (r : Route) :
    (recalculate_distance r).loop_mode = r.loop_mode := rfl

theorem add_closure_segment_waypoints (g : GetRoute) (r : Route) :
    (add_closure_segment g r).waypoints = r.waypoints := rfl

theorem add_closure_segment_loop_mode (g : GetRoute) (r : Route) :
    (add_closure_segment g r).loop_mode = r.loop_mode := rfl

theorem add_closure_segment_segments (g : GetRoute) (r : Route) :
    (add_closure_segment g r).segments = r.segments ++ [closure_of g r] := rfl

theorem closure_of_is_closure (g : GetRoute) (r : Route) :
    (closure_of g r).is_closure = true := rfl

theorem closure_of_to_waypoint (g : GetRoute) (r : Route) :
    (closure_of g r).to_waypoint = 0 := rfl

theorem closure_of_from_waypoint (g : GetRoute) (r : Route) :
    (closure_of g r).from_waypoint = r.waypoints.length - 1 := rfl

theorem segLastClosure_true_iff (r : Route) :
    segLastClosure r = true ↔
      ∃ c, r.segments.getLast? = some c ∧ c.is_closure = true := by
  unfold segLastClosure
  cases hg : r.segments.getLast? with
  | none => simp
  | some c => simp [hg]

theorem segLastClosure_false_of_all {r : Route}
    (h : ∀ s ∈ r.segments, s.is_closure = false) :
    segLastClosure r = false := by
  unfold segLastClosure
  cases hg : r.segments.getLast? with
  | none => rfl
  | some c => exact h c (List.mem_of_mem_getLast? hg)

/-- The route-shape invariant of the spec, strengthened so that it is
inductive: without loop mode the segment count is one less than the waypoint
count and no segment is a closure; with loop mode a short route has no
segments, and otherwise the segments number exactly the waypoints, the last
one is the closure from the last waypoint back to waypoint 0, and all
earlier segments are non-closures. -/
def segShape (r : Route) : Prop :=
  (r.loop_mode = false →
    r.segments.length = r.waypoints.length - 1
    ∧ ∀ s ∈ r.segments, s.is_closure = false)
  ∧ (r.loop_mode = true →
    (r.waypoints.length ≤ 1 → r.segments = [])
    ∧ (2 ≤ r.waypoints.length →
        r.segments.length = r.waypoints.length
        ∧ (∃ c, r.segments.getLast? = some c ∧ c.is_closure = true
            ∧ c.to_waypoint = 0 ∧ c.from_waypoint = r.waypoints.length - 1)
        ∧ ∀ s ∈ r.segments.dropLast, s.is_closure = false))

theorem segShape_empty : segShape emptyRoute := by
  constructor
  · intro _
    exact ⟨rfl, by intro s hs; simp [emptyRoute] at hs⟩
  · intro h
    simp [emptyRoute] at h


theorem segLastClosure_nil {r : Route} (h : r.segments = []) :
    segLastClosure r = false := by
  unfold segLastClosure
  rw [h]
  rfl

theorem segShape_of_closure_appended (g : GetRoute) (r2 : Route)
    (hloop : r2.loop_mode = true)
    (h2w : 2 ≤ r2.waypoints.length)
    (hlen : r2.segments.length + 1 = r2.waypoints.length)
    (hall : ∀ s ∈ r2.segments, s.is_closure = false) :
    segShape (recalculate_distance (add_closure_segment g r2)) := by
  constructor
  · intro hb
    simp only [recalculate_distance_loop_mode,
      add_closure_segment_loop_mode] at hb
    rw [hloop] at hb
    exact Bool.noConfusion hb
  · intro _
    constructor
    · intro hle
      exfalso
      simp only [recalculate_distance_waypoints,
        add_closure_segment_waypoints] at hle
      omega
    · intro _
      refine ⟨?_, ⟨closure_of g r2, ?_, rfl, rfl, ?_⟩, ?_⟩
      · simp only [recalculate_distance_segments,
          add_closure_segment_segments, recalculate_distance_waypoints,
          add_closure_segment_waypoints, List.length_append,
          List.length_cons, List.length_nil]
        omega
      · simp only [recalculate_distance_segments,
          add_closure_segment_segments]
        exact List.getLast?_concat _
      · simp only [closure_of_from_waypoint, recalculate_distance_waypoints,
          add_closure_segment_waypoints]
      · intro s hsmem
        simp only [recalculate_distance_segments,
          add_closure_segment_segments, List.dropLast_concat] at hsmem
        exact hall s hsmem

theorem segShape_no_loop (r2 : Route)
    (hloop : r2.loop_mode = false)
    (hlen : r2.segments.length = r2.waypoints.length - 1)
    (hall : ∀ s ∈ r2.segments, s.is_closure = false) :
    segShape (recalculate_distance r2) := by
  constructor
  · intro _
    refine ⟨?_, ?_⟩
    · simpa using hlen
    · simpa using hall
  · intro hb
    rw [recalculate_distance_loop_mode, hloop] at hb
    exact Bool.noConfusion hb

theorem segShape_add_waypoint_core (g : GetRoute) (rt : Route) (lat lng : ℝ)
    (hs : segShape rt) :
    ∀ r, add_waypoint g (some rt) lat lng = some r → segShape r := by
  intro r hr
  unfold add_waypoint routeOf at hr
  simp only [Option.getD_some] at hr
  by_cases h0 : rt.waypoints.length = 0
  · rw [if_pos h0] at hr
    have hsegs : rt.segments = [] := by
      cases hb : rt.loop_mode with
      | false =>
        have h1 := (hs.1 hb).1
        rw [h0] at h1
        exact List.eq_nil_of_length_eq_zero (by omega)
      | true => exact (hs.2 hb).1 (by omega)
    injection hr with hr
    subst hr
    constructor
    · intro _
      refine ⟨by simp [hsegs], ?_⟩
      intro s hsmem
      rw [hsegs] at hsmem
      simp at hsmem
    · intro _
      refine ⟨fun _ => by simp [hsegs], fun h2 => ?_⟩
      simp at h2
  · have hw1 : 1 ≤ rt.waypoints.length := Nat.one_le_iff_ne_zero.mpr h0
    rw [if_neg h0] at hr
    split at hr
    · rename_i hc1
      rw [Bool.and_eq_true] at hc1
      obtain ⟨hloop, hclos⟩ := hc1
      have h2w : 2 ≤ rt.waypoints.length := by
        by_contra hlt
        have hnil : rt.segments = [] := (hs.2 hloop).1 (by omega)
        rw [segLastClosure_nil hnil] at hclos
        exact Bool.noConfusion hclos
      obtain ⟨hlen, ⟨c, hc, hcc, hct, hcf⟩, hdl⟩ := (hs.2 hloop).2 h2w
      split at hr
      · injection hr with hr
        subst hr
        apply segShape_of_closure_appended g
        · exact hloop
        · simp only [List.length_append, List.length_cons, List.length_nil]
          omega
        · simp only [List.length_append, List.length_cons, List.length_nil,
            List.length_dropLast]
          omega
        · intro s hsmem
          rcases List.mem_append.mp hsmem with h1 | h1
          · exact hdl s h1
          · simp at h1
            subst h1
            rfl
      · rename_i hc2
        exfalso
        simp only [Bool.and_eq_true, decide_eq_true_eq, List.length_append,
          List.length_cons, List.length_nil, not_and] at hc2
        exact absurd (by omega) (hc2 hloop)
    · rename_i hc1
      split at hr
      · rename_i hc2
        simp only [Bool.and_eq_true, decide_eq_true_eq, List.length_append,
          List.length_cons, List.length_nil] at hc2
        obtain ⟨hloop, -⟩ := hc2
        have hw1eq : rt.waypoints.length = 1 := by
          by_contra hne
          have h2w : 2 ≤ rt.waypoints.length := by omega
          obtain ⟨hlen, ⟨c, hc, hcc, hct, hcf⟩, hdl⟩ := (hs.2 hloop).2 h2w
          have hlc : segLastClosure rt = true := by
            unfold segLastClosure
            rw [hc]
            exact hcc
          rw [hloop, hlc] at hc1
          simp at hc1
        have hnil : rt.segments = [] := (hs.2 hloop).1 (by omega)
        injection hr with hr
        subst hr
        apply segShape_of_closure_appended g
        · exact hloop
        · simp only [List.length_append, List.length_cons, List.length_nil]
          omega
        · simp only [List.length_append, List.length_cons, List.length_nil,
            hnil]
          omega
        · intro s hsmem
          simp only [hnil, List.nil_append] at hsmem
          simp at hsmem
          subst hsmem
          rfl
      · rename_i hc2
        have hloop : rt.loop_mode = false := by
          by_contra hne
          have hl : rt.loop_mode = true := by
            cases h : rt.loop_mode
            · exact absurd h hne
            · rfl
          rw [hl] at hc2
          simp only [Bool.true_and, decide_eq_true_eq, List.length_append,
            List.length_cons, List.length_nil] at hc2
          exact hc2 (by omega)
        obtain ⟨hlen, hall⟩ := hs.1 hloop
        injection hr with hr
        subst hr
        apply segShape_no_loop
        · exact hloop
        · simp only [List.length_append, List.length_cons, List.length_nil]
          omega
        · intro s hsmem
          rcases List.mem_append.mp hsmem with h1 | h1
          · exact hall s h1
          · simp at h1
            subst h1
            rfl


theorem segShape_undo_waypoint_core (g : GetRoute) (b : Bool) (rt : Route)
    (hs : segShape rt) :
    ∀ r, undo_waypoint g b (some rt) = some r → segShape r := by
  intro r hr
  simp only [undo_waypoint] at hr
  by_cases h0 : rt.waypoints.length = 0
  · rw [if_pos h0] at hr
    injection hr with hr
    subst hr
    exact hs
  · rw [if_neg h0] at hr
    by_cases hb : b = true
    · rw [hb, if_pos rfl] at hr
      injection hr with hr
      subst hr
      exact hs
    · rw [Bool.not_eq_true] at hb
      rw [hb, if_neg (by simp)] at hr
      by_cases h1 : rt.waypoints.length = 1
      · rw [if_pos h1] at hr
        exact Option.noConfusion hr
      · rw [if_neg h1] at hr
        have h2w : 2 ≤ rt.waypoints.length := by omega
        split at hr
        · rename_i hc1
          rw [Bool.and_eq_true] at hc1
          obtain ⟨hloop, hclos⟩ := hc1
          obtain ⟨hlen, ⟨c, hc, hcc, hct, hcf⟩, hdl⟩ := (hs.2 hloop).2 h2w
          split at hr
          · rename_i hc2
            simp only [Bool.and_eq_true, decide_eq_true_eq,
              List.length_dropLast] at hc2
            obtain ⟨-, h3⟩ := hc2
            injection hr with hr
            subst hr
            apply segShape_of_closure_appended g
            · exact hloop
            · show 2 ≤ rt.waypoints.dropLast.length
              simp only [List.length_dropLast]
              omega
            · show rt.segments.dropLast.dropLast.length + 1
                = rt.waypoints.dropLast.length
              simp only [List.length_dropLast]
              omega
            · intro s hsmem
              exact hdl s ((List.dropLast_sublist _).subset hsmem)
          · rename_i hc2
            simp only [Bool.and_eq_true, decide_eq_true_eq,
              List.length_dropLast, not_and] at hc2
            have h2x : ¬ 2 ≤ rt.waypoints.length - 1 := hc2 hloop
            injection hr with hr
            subst hr
            constructor
            · intro hbf
              exact Bool.noConfusion (hloop.symm.trans hbf)
            · intro _
              refine ⟨fun _ => ?_, fun h2 => ?_⟩
              · apply List.eq_nil_of_length_eq_zero
                show rt.segments.dropLast.dropLast.length = 0
                simp only [List.length_dropLast]
                omega
              · exfalso
                have h2y : 2 ≤ rt.waypoints.dropLast.length := h2
                simp only [List.length_dropLast] at h2y
                exact h2x h2y
        · rename_i hc1
          split at hr
          · rename_i hc2
            simp only [Bool.and_eq_true, decide_eq_true_eq,
              List.length_dropLast] at hc2
            obtain ⟨hloop, -⟩ := hc2
            obtain ⟨-, ⟨c, hc, hcc, -, -⟩, -⟩ := (hs.2 hloop).2 h2w
            have hlc : segLastClosure rt = true := by
              unfold segLastClosure
              rw [hc]
              exact hcc
            exfalso
            rw [hloop, hlc] at hc1
            simp at hc1
          · rename_i hc2
            have hloop : rt.loop_mode = false := by
              cases hl : rt.loop_mode
              · rfl
              · obtain ⟨-, ⟨c, hc, hcc, -, -⟩, -⟩ := (hs.2 hl).2 h2w
                have hlc : segLastClosure rt = true := by
                  unfold segLastClosure
                  rw [hc]
                  exact hcc
                exfalso
                rw [hl, hlc] at hc1
                simp at hc1
            obtain ⟨hlen, hall⟩ := hs.1 hloop
            injection hr with hr
            subst hr
            apply segShape_no_loop
            · exact hloop
            · show rt.segments.dropLast.length
                = rt.waypoints.dropLast.length - 1
              simp only [List.length_dropLast]
              omega
            · intro s hsmem
              exact hall s ((List.dropLast_sublist _).subset hsmem)


theorem segShape_set_loop_mode_aux (g : GetRoute) (b : Bool) (rt : Route)
    (hs : segShape rt) :
    ∀ r, set_loop_mode g none b (some rt) = some r → segShape r := by
  intro r hr
  simp only [set_loop_mode, routeOf, Option.getD_some] at hr
  by_cases hb : b = true
  · subst hb
    rw [if_pos rfl] at hr
    split at hr
    · rename_i hc
      simp only [Bool.and_eq_true, decide_eq_true_eq, Bool.not_eq_true'] at hc
      obtain ⟨h2w, hnc⟩ := hc
      have h2w' : 2 ≤ rt.waypoints.length := h2w
      have hnc' : segLastClosure rt = false := hnc
      cases hl : rt.loop_mode with
      | false =>
        obtain ⟨hlen, hall⟩ := hs.1 hl
        injection hr with hr
        subst hr
        apply segShape_of_closure_appended g
        · rfl
        · exact h2w'
        · show rt.segments.length + 1 = rt.waypoints.length
          omega
        · intro s hsmem
          exact hall s hsmem
      | true =>
        by_cases h2 : 2 ≤ rt.waypoints.length
        · obtain ⟨-, ⟨c, hc2, hcc, -, -⟩, -⟩ := (hs.2 hl).2 h2
          have hlc : segLastClosure rt = true := by
            unfold segLastClosure
            rw [hc2]
            exact hcc
          exfalso
          rw [hlc] at hnc'
          exact Bool.noConfusion hnc'
        · exact absurd h2w' h2
    · rename_i hc
      simp only [Bool.and_eq_true, decide_eq_true_eq, Bool.not_eq_true',
        not_and] at hc
      injection hr with hr
      subst hr
      constructor
      · intro hbf
        exact Bool.noConfusion (show (true : Bool) = false from hbf)
      · intro _
        constructor
        · intro hle
          have hle' : rt.waypoints.length ≤ 1 := hle
          apply List.eq_nil_of_length_eq_zero
          show rt.segments.length = 0
          cases hl : rt.loop_mode with
          | false =>
            have hlen := (hs.1 hl).1
            omega
          | true =>
            have hnil := (hs.2 hl).1 hle'
            rw [hnil]
            rfl
        · intro h2
          have h2' : 2 ≤ rt.waypoints.length := h2
          have hne := hc h2'
          have hlc : segLastClosure rt = true := by
            cases hx : segLastClosure rt with
            | false => exact absurd hx hne
            | true => rfl
          cases hl : rt.loop_mode with
          | false =>
            obtain ⟨-, hall⟩ := hs.1 hl
            have hf := segLastClosure_false_of_all hall
            rw [hlc] at hf
            exact Bool.noConfusion hf
          | true =>
            obtain ⟨hlen, hex, hdl⟩ := (hs.2 hl).2 h2'
            exact ⟨hlen, hex, hdl⟩
  · rw [Bool.not_eq_true] at hb
    subst hb
    rw [if_neg (by simp)] at hr
    split at hr
    · rename_i hcl
      have hcl' : segLastClosure rt = true := hcl
      rw [if_neg (by simp)] at hr
      cases hl : rt.loop_mode with
      | false =>
        obtain ⟨-, hall⟩ := hs.1 hl
        have hf := segLastClosure_false_of_all hall
        exfalso
        rw [hcl'] at hf
        exact Bool.noConfusion hf
      | true =>
        have h2w : 2 ≤ rt.waypoints.length := by
          by_contra h2
          have hnil := (hs.2 hl).1 (by omega)
          rw [segLastClosure_nil hnil] at hcl'
          exact Bool.noConfusion hcl'
        obtain ⟨hlen, ⟨c, hc2, hcc, -, -⟩, hdl⟩ := (hs.2 hl).2 h2w
        injection hr with hr
        subst hr
        apply segShape_no_loop
        · rfl
        · show rt.segments.dropLast.length = rt.waypoints.length - 1
          simp only [List.length_dropLast]
          omega
        · intro s hsmem
          exact hdl s hsmem
    · rename_i hcl
      have hcl' : segLastClosure rt = false := by
        cases hx : segLastClosure rt with
        | false => rfl
        | true =>
          exact absurd
            (show segLastClosure {rt with loop_mode := false} = true from hx)
            hcl
      injection hr with hr
      subst hr
      apply segShape_no_loop
      · rfl
      · show rt.segments.length = rt.waypoints.length - 1
        cases hl : rt.loop_mode with
        | false => exact (hs.1 hl).1
        | true =>
          by_cases h2 : 2 ≤ rt.waypoints.length
          · obtain ⟨-, ⟨c, hc2, hcc, -, -⟩, -⟩ := (hs.2 hl).2 h2
            have hx : segLastClosure rt = true := by
              unfold segLastClosure
              rw [hc2]
              exact hcc
            rw [hx] at hcl'
            exact Bool.noConfusion hcl'
          · have hnil := (hs.2 hl).1 (by omega)
            rw [hnil]
            simp only [List.length_nil]
            omega
      · intro s hsmem
        cases hl : rt.loop_mode with
        | false => exact (hs.1 hl).2 s hsmem
        | true =>
          by_cases h2 : 2 ≤ rt.waypoints.length
          · obtain ⟨-, ⟨c, hc2, hcc, -, -⟩, -⟩ := (hs.2 hl).2 h2
            have hx : segLastClosure rt = true := by
              unfold segLastClosure
              rw [hc2]
              exact hcc
            rw [hx] at hcl'
            exact Bool.noConfusion hcl'
          · have hnil := (hs.2 hl).1 (by omega)
            rw [hnil] at hsmem
            simp at hsmem

theorem segShape_add_waypoint (g : GetRoute) (lat lng : ℝ) {o : Option Route}
    (h : ∀ t, o = some t → segShape t) :
    ∀ r, add_waypoint g o lat lng = some r → segShape r := by
  cases o with
  | none =>
    intro r hr
    exact segShape_add_waypoint_core g emptyRoute lat lng segShape_empty r hr
  | some t =>
    exact segShape_add_waypoint_core g t lat lng (h t rfl)

theorem segShape_undo_waypoint (g : GetRoute) (b : Bool) {o : Option Route}
    (h : ∀ t, o = some t → segShape t) :
    ∀ r, undo_waypoint g b o = some r → segShape r := by
  cases o with
  | none =>
    intro r hr
    exact Option.noConfusion hr
  | some t =>
    exact segShape_undo_waypoint_core g b t (h t rfl)

theorem segShape_set_loop_mode (g : GetRoute) (b : Bool) {o : Option Route}
    (h : ∀ t, o = some t → segShape t) :
    ∀ r, set_loop_mode g none b o = some r → segShape r := by
  cases o with
  | none =>
    intro r hr
    exact segShape_set_loop_mode_aux g b emptyRoute segShape_empty r hr
  | some t =>
    exact segShape_set_loop_mode_aux g b t (h t rfl)

/-- Route states reachable from the initial no-route state through the
route-building operations alone. Each step may use any routing oracle. No
route session exists in this closed world, so undo_waypoint sees no RUNNING
session and set_loop_mode sees no session. -/
inductive Reach : Option Route → Prop
  | init : Reach none
  | add (g : GetRoute) (lat lng : ℝ) {o : Option Route} :
      Reach o → Reach (add_waypoint g o lat lng)
  | undo (g : GetRoute) {o : Option Route} :
      Reach o → Reach (undo_waypoint g false o)
  | set_loop (g : GetRoute) (b : Bool) {o : Option Route} :
      Reach o → Reach (set_loop_mode g none b o)

theorem reach_segShape {o : Option Route} (h : Reach o) :
    ∀ r, o = some r → segShape r := by
  induction h with
  | init => intro r hr; exact Option.noConfusion hr
  | add g lat lng _ ih => exact segShape_add_waypoint g lat lng ih
  | undo g _ ih => exact segShape_undo_waypoint g false ih
  | set_loop g b _ ih => exact segShape_set_loop_mode g b ih


/-- C2: for every route state reachable through the route-building
operations (addWaypoint, undoWaypoint, setLoopMode), without loop mode the
segment count is the waypoint count minus one, and with loop mode the last
segment (when one exists; with fewer than two waypoints there are none) is a
closure from the last waypoint back to waypoint 0. -/
theorem route_shape_invariant (o : Option Route) (r : Route)
    (hreach : Reach o) (ho : o = some r) :
    (r.loop_mode = false → r.segments.length = r.waypoints.length - 1)
    ∧ (r.loop_mode = true → ∀ c, r.segments.getLast? = some c →
        c.is_closure = true ∧ c.from_waypoint = r.waypoints.length - 1
        ∧ c.to_waypoint = 0) := by
  have hs := reach_segShape hreach r ho
  constructor
  · intro hl
    exact (hs.1 hl).1
  · intro hl c hc
    by_cases h2 : 2 ≤ r.waypoints.length
    · obtain ⟨-, ⟨c2, hc2, hcc, hct, hcf⟩, -⟩ := (hs.2 hl).2 h2
      rw [hc] at hc2
      injection hc2 with he
      subst he
      exact ⟨hcc, hcf, hct⟩
    · have hnil := (hs.2 hl).1 (by omega)
      rw [hnil] at hc
      simp at hc

/-- A trivial routing oracle for concrete instantiations. -/
def witnessG : GetRoute := fun _ _ => ⟨[], 0, false⟩

/-- The route after a single addWaypoint on a fresh state. -/
def startOnlyRoute : Route := ⟨[⟨25, 121.5, "START"⟩], [], false, 0⟩

/-- Witness for route_shape_invariant on a concrete reachable state. -/
theorem route_shape_invariant_witness :
    (startOnlyRoute.loop_mode = false →
      startOnlyRoute.segments.length = startOnlyRoute.waypoints.length - 1)
    ∧ (startOnlyRoute.loop_mode = true →
        ∀ c, startOnlyRoute.segments.getLast? = some c →
          c.is_closure = true
          ∧ c.from_waypoint = startOnlyRoute.waypoints.length - 1
          ∧ c.to_waypoint = 0) :=
  route_shape_invariant (add_waypoint witnessG none 25 121.5) startOnlyRoute
    (Reach.add witnessG 25 121.5 Reach.init) rfl


/-- The on_closure test inside set_loop_mode, as written in the code: the
session exists, is RUNNING, and its segment index is AT OR PAST the closure
index. -/
def sessionOnClosure (session : Option (RouteState × ℕ))
    (closure_index : ℕ) : Bool :=
  match session with
  | some (st, idx) =>
      decide (st = RouteState.running) && decide (closure_index ≤ idx)
  | none => false

/-- A concrete 2-waypoint looped route for set_loop_mode scenarios. -/
def cexSeg0 : RouteSegment :=
  ⟨0, 1, [(25, 121.5), (25.01, 121.51)], 0, false, false⟩

/-- The closure segment of the concrete looped route. -/
def cexClosure : RouteSegment :=
  ⟨1, 0, [(25.01, 121.51), (25, 121.5)], 0, true, false⟩

/-- Concrete looped route: waypoints START and 1, a forward segment and the
closure. -/
def cexRoute : Route :=
  ⟨[⟨25, 121.5, "START"⟩, ⟨25.01, 121.51, "1"⟩], [cexSeg0, cexClosure],
    true, 0⟩

/-- C6 counterexample: a RUNNING session whose current segment index (2) is
past the closure index (1) - so it does not point AT the closure - still
prevents the closure from being removed, because the code tests index ≥
closure index, not equality. -/
theorem set_loop_mode_keeps_closure_past_index :
    (2 : ℕ) ≠ cexRoute.segments.length - 1
    ∧ (set_loop_mode witnessG (some (RouteState.running, 2)) false
        (some cexRoute)).map Route.segments = some cexRoute.segments
    ∧ cexRoute.segments.getLast? = some cexClosure
    ∧ cexClosure.is_closure = true :=
  ⟨by decide, rfl, rfl, rfl⟩

/-- C6 amended: disabling loop mode on a route whose last segment is a
closure removes exactly that closure, unless the session is RUNNING with its
current segment index at or past the closure index, in which case the
closure is left in place. -/
theorem set_loop_mode_disable_closure (g : GetRoute)
    (session : Option (RouteState × ℕ)) (o : Option Route) (c : RouteSegment)
    (hc : (routeOf o).segments.getLast? = some c)
    (hcc : c.is_closure = true) :
    ∀ r, set_loop_mode g session false o = some r →
      r.loop_mode = false
      ∧ (sessionOnClosure session ((routeOf o).segments.length - 1) = true →
          r.segments = (routeOf o).segments)
      ∧ (sessionOnClosure session ((routeOf o).segments.length - 1) = false →
          r.segments = (routeOf o).segments.dropLast
          ∧ (routeOf o).segments = r.segments ++ [c]) := by
  intro r hr
  have hne : (routeOf o).segments ≠ [] := by
    intro h
    rw [h] at hc
    simp at hc
  have hsplit : (routeOf o).segments
      = (routeOf o).segments.dropLast ++ [c] := by
    have h1 := List.dropLast_append_getLast hne
    have hgl := hc
    rw [List.getLast?_eq_getLast _ hne] at hgl
    injection hgl with hgl
    rw [hgl] at h1
    exact h1.symm
  simp only [set_loop_mode] at hr
  rw [if_neg (by simp)] at hr
  have hlc : segLastClosure {routeOf o with loop_mode := false} = true := by
    show (match (routeOf o).segments.getLast? with
        | some s => s.is_closure
        | none => false) = true
    rw [hc]
    exact hcc
  rw [if_pos hlc] at hr
  split at hr
  · rename_i hon
    injection hr with hr
    subst hr
    refine ⟨rfl, fun _ => rfl, fun hfalse => ?_⟩
    exfalso
    have hon2 : sessionOnClosure session
        ((routeOf o).segments.length - 1) = true := hon
    exact Bool.noConfusion (hon2.symm.trans hfalse)
  · rename_i hon
    injection hr with hr
    subst hr
    refine ⟨rfl, fun htrue => ?_, fun _ => ⟨rfl, ?_⟩⟩
    · exfalso
      exact hon htrue
    · exact hsplit

/-- The route produced by disabling loop mode with a PAUSED session on the
closure. -/
def c6wRoute : Route :=
  (set_loop_mode witnessG (some (RouteState.paused, 1)) false
    (some cexRoute)).getD emptyRoute

/-- Witness for set_loop_mode_disable_closure: a PAUSED session on the
closure does not protect it; the closure is removed. -/
theorem set_loop_mode_disable_closure_witness :
    cexRoute.segments.getLast? = some cexClosure
    ∧ cexClosure.is_closure = true
    ∧ sessionOnClosure (some (RouteState.paused, 1))
        (cexRoute.segments.length - 1) = false
    ∧ c6wRoute.loop_mode = false
    ∧ c6wRoute.segments = cexRoute.segments.dropLast
    ∧ cexRoute.segments = c6wRoute.segments ++ [cexClosure] := by
  have h := set_loop_mode_disable_closure witnessG
    (some (RouteState.paused, 1)) (some cexRoute) cexClosure rfl rfl
    c6wRoute rfl
  exact ⟨rfl, rfl, rfl, h.1, (h.2.2 rfl).1, (h.2.2 rfl).2⟩


/-- RouteSession from route_service.py (progression state; wall-clock start
time omitted). -/
structure RouteSessionM where
  device_id : String
  route : Route
  speed_kmh : ℝ
  state : RouteState
  current_segment_index : ℕ
  current_step_in_segment : ℕ
  segments_completed : ℕ
  loops_completed : ℕ
  bridge_from : Option (ℝ × ℝ)
  is_bridging : Bool
  reroute_path : Option (List (ℝ × ℝ))
  reroute_step : ℕ
  distance_traveled_km : ℝ

/-- Events emitted by the point-pair feed, with the session snapshot at
emission time. -/
inductive FeedEvent
  | segmentComplete (s : RouteSessionM)
  | loopComplete (s : RouteSessionM)
  | routeArrivedEv (s : RouteSessionM)

/-- How a feed invocation ends: a CruiseService.start_cruise call for a
point pair, route arrival (session removed), or fuel exhaustion of the
model (the Python recursion did not bottom out within the given depth). -/
inductive FeedOutcome
  | started (startPt targetPt : ℝ × ℝ) (speed : ℝ)
  | arrived
  | outOfFuel

/-- Results of a feed invocation: emitted events in order, final session
state, whether the route session was removed, and the outcome. -/
structure FeedRun where
  evs : List FeedEvent
  sess : RouteSessionM
  removed : Bool
  out : FeedOutcome

/-- Placeholder segment for out-of-range indexing (unreachable for routes
whose polylines are nonempty, as the routing provider guarantees). -/
def defaultSegment : RouteSegment := ⟨0, 0, [], 0, false, false⟩

/-- One unfolding of _start_next_point_pair from route_service.py, with the
recursive self-calls abstracted as k. Python list indexing path[step],
path[step+1], path[-1], path[0] is modelled with getD/getLastD/headD
defaults; step >= len(path)-1 coincides with the Python int comparison for
nonempty paths. The small-gap bridge fall-through re-enters the feed with
the bridge cleared, which lands in the same normal-processing code the
Python version falls through to. -/
def feedBody (k : RouteSessionM → FeedRun) (s : RouteSessionM) : FeedRun :=
  match s.reroute_path with
  | some path =>
    if path.length - 1 ≤ s.reroute_step then
      let s1 := {s with bridge_from := some (path.getLastD (0, 0)),
                        reroute_path := none, reroute_step := 0,
                        current_segment_index := s.current_segment_index + 1,
                        current_step_in_segment := 0,
                        segments_completed := s.segments_completed + 1}
      let r := k s1
      ⟨FeedEvent.segmentComplete s1 :: r.evs, r.sess, r.removed, r.out⟩
    else
      let current_pt := path.getD s.reroute_step (0, 0)
      let next_pt := path.getD (s.reroute_step + 1) (0, 0)
      if distance_between current_pt.1 current_pt.2 next_pt.1 next_pt.2
          < arrival_threshold_km s.speed_kmh then
        k {s with reroute_step := s.reroute_step + 1}
      else ⟨[], s, false, .started current_pt next_pt s.speed_kmh⟩
  | none =>
    if s.route.segments.length ≤ s.current_segment_index then
      if s.route.loop_mode then
        let s1 := {s with
          bridge_from := some
            ((s.route.segments.getLastD defaultSegment).path.getLastD (0, 0)),
          current_segment_index := 0, current_step_in_segment := 0,
          loops_completed := s.loops_completed + 1}
        let r := k s1
        ⟨FeedEvent.loopComplete s1 :: r.evs, r.sess, r.removed, r.out⟩
      else
        let s1 := {s with state := RouteState.arrived}
        ⟨[FeedEvent.routeArrivedEv s1], s1, true, .arrived⟩
    else
      match s.bridge_from with
      | some bf =>
        let s0 := {s with bridge_from := none}
        let seg := s.route.segments.getD s.current_segment_index
          defaultSegment
        let bridge_to := seg.path.headD (0, 0)
        if arrival_threshold_km s.speed_kmh
            ≤ distance_between bf.1 bf.2 bridge_to.1 bridge_to.2 then
          ⟨[], {s0 with is_bridging := true}, false,
            .started bf bridge_to s.speed_kmh⟩
        else k s0
      | none =>
        let seg := s.route.segments.getD s.current_segment_index
          defaultSegment
        let coordinates := seg.path
        let step := s.current_step_in_segment
        if coordinates.length - 1 ≤ step then
          let s1 := {s with
            bridge_from := some (coordinates.getLastD (0, 0)),
            current_segment_index := s.current_segment_index + 1,
            current_step_in_segment := 0,
            segments_completed := s.segments_completed + 1}
          let r := k s1
          ⟨FeedEvent.segmentComplete s1 :: r.evs, r.sess, r.removed, r.out⟩
        else
          let current_pt := coordinates.getD step (0, 0)
          let next_pt := coordinates.getD (step + 1) (0, 0)
          if distance_between current_pt.1 current_pt.2 next_pt.1 next_pt.2
              < arrival_threshold_km s.speed_kmh then
            k {s with current_step_in_segment := step + 1}
          else ⟨[], s, false, .started current_pt next_pt s.speed_kmh⟩

/-- The point-pair feed with explicit fuel bounding the recursion depth of
the Python implementation. -/
def feed : ℕ → RouteSessionM → FeedRun
  | 0, s => ⟨[], s, false, .outOfFuel⟩
  | n + 1, s => feedBody (feed n) s

/-- The session survives a feed invocation: it is not removed and the
outcome is not route arrival. -/
def FeedSafe (r : FeedRun) : Prop :=
  r.removed = false ∧ r.out ≠ FeedOutcome.arrived

theorem feedSafe_cons (e : FeedEvent) (r : FeedRun) (h : FeedSafe r) :
    FeedSafe ⟨e :: r.evs, r.sess, r.removed, r.out⟩ := h

theorem feed_loop_not_removed (m : ℕ) :
    ∀ t : RouteSessionM, t.route.loop_mode = true → FeedSafe (feed m t) := by
  induction m with
  | zero =>
    intro t _
    exact ⟨rfl, fun h => FeedOutcome.noConfusion h⟩
  | succ n ih =>
    intro t ht
    show FeedSafe (feedBody (feed n) t)
    cases hrp : t.reroute_path with
    | some path =>
      simp only [feedBody, hrp]
      split
      · exact feedSafe_cons _ _ (ih _ ht)
      · split
        · exact ih _ ht
        · exact ⟨rfl, fun h => FeedOutcome.noConfusion h⟩
    | none =>
      simp only [feedBody, hrp, ht, if_true]
      split
      · exact feedSafe_cons _ _ (ih _ ht)
      · cases hbf : t.bridge_from with
        | some bf =>
          simp only [hbf]
          split
          · exact ⟨rfl, fun h => FeedOutcome.noConfusion h⟩
          · exact ih _ ht
        | none =>
          simp only [hbf]
          split
          · exact feedSafe_cons _ _ (ih _ ht)
          · split
            · exact ih _ ht
            · exact ⟨rfl, fun h => FeedOutcome.noConfusion h⟩


/-- The session state after the loop-wraparound branch of the feed: stash
the last polyline point as the bridge anchor, reset to segment 0 step 0,
and count the completed loop. -/
def loopResetSession (s : RouteSessionM) : RouteSessionM :=
  {s with
    bridge_from := some
      ((s.route.segments.getLastD defaultSegment).path.getLastD (0, 0)),
    current_segment_index := 0,
    current_step_in_segment := 0,
    loops_completed := s.loops_completed + 1}

/-- C5: with loop mode on and the segment index exhausted (and no reroute
active), one feed step stashes the last polyline point as the bridge-from
anchor, resets to segment 0 step 0, increments loops_completed by exactly
one, emits the loop-complete event, and continues feeding from the reset
session; moreover under loop mode no feed invocation ever removes the
session or arrives. -/
theorem feed_loop_wraparound (n : ℕ) (s : RouteSessionM)
    (hrr : s.reroute_path = none)
    (hloop : s.route.loop_mode = true)
    (hidx : s.route.segments.length ≤ s.current_segment_index) :
    feed (n + 1) s
      = ⟨FeedEvent.loopComplete (loopResetSession s)
           :: (feed n (loopResetSession s)).evs,
         (feed n (loopResetSession s)).sess,
         (feed n (loopResetSession s)).removed,
         (feed n (loopResetSession s)).out⟩
    ∧ (loopResetSession s).loops_completed = s.loops_completed + 1
    ∧ (loopResetSession s).current_segment_index = 0
    ∧ (loopResetSession s).current_step_in_segment = 0
    ∧ (loopResetSession s).bridge_from
        = some ((s.route.segments.getLastD defaultSegment).path.getLastD
            (0, 0))
    ∧ (∀ (m : ℕ) (t : RouteSessionM), t.route.loop_mode = true →
        (feed m t).removed = false
        ∧ (feed m t).out ≠ FeedOutcome.arrived) := by
  refine ⟨?_, rfl, rfl, rfl, rfl,
    fun m t ht => ⟨(feed_loop_not_removed m t ht).1,
      (feed_loop_not_removed m t ht).2⟩⟩
  show feedBody (feed n) s = _
  simp only [feedBody, hrr, hloop, if_true]
  rw [if_pos hidx]
  simp only [loopResetSession, hrr]

/-- Session at the loop wraparound point of the concrete looped route. -/
def c5Session : RouteSessionM :=
  ⟨"dev", cexRoute, 10, RouteState.running, 2, 0, 2, 0, none, false, none,
    0, 0⟩

/-- Witness for feed_loop_wraparound on the concrete looped route. -/
theorem feed_loop_wraparound_witness :
    feed (0 + 1) c5Session
      = ⟨FeedEvent.loopComplete (loopResetSession c5Session)
           :: (feed 0 (loopResetSession c5Session)).evs,
         (feed 0 (loopResetSession c5Session)).sess,
         (feed 0 (loopResetSession c5Session)).removed,
         (feed 0 (loopResetSession c5Session)).out⟩
    ∧ (loopResetSession c5Session).loops_completed
        = c5Session.loops_completed + 1 :=
  ⟨(feed_loop_wraparound 0 c5Session rfl rfl (by decide)).1,
   (feed_loop_wraparound 0 c5Session rfl rfl (by decide)).2.1⟩

/-- A degenerate route for the recursion analysis: two waypoints at the
same position, two segments (one the closure) whose polylines repeat the
single point (25, 121.5). -/
def degSeg1 : RouteSegment :=
  ⟨0, 1, [(25, 121.5), (25, 121.5)], 0, false, false⟩

/-- Closure segment of the degenerate route. -/
def degClosure2 : RouteSegment :=
  ⟨1, 0, [(25, 121.5), (25, 121.5)], 0, true, false⟩

/-- The degenerate loop-mode route. -/
def degRoute : Route :=
  ⟨[⟨25, 121.5, "START"⟩, ⟨25, 121.5, "1"⟩], [degSeg1, degClosure2],
    true, 0⟩

/-- A fresh session on the degenerate route at 10 km/h. -/
def degSession : RouteSessionM :=
  ⟨"dev", degRoute, 10, RouteState.running, 0, 0, 0, 0, none, false, none,
    0, 0⟩

theorem feed_deg_aux (n : ℕ) :
    ∀ s : RouteSessionM, s.route = degRoute → s.reroute_path = none →
      s.speed_kmh = 10 →
      (s.bridge_from = none ∨ s.bridge_from = some (25, 121.5)) →
      (feed n s).out = FeedOutcome.outOfFuel := by
  induction n with
  | zero =>
    intro s _ _ _ _
    rfl
  | succ n ih =>
    intro s hroute hrp hv hbf
    have hd0 : distance_between 25 121.5 25 121.5
        < arrival_threshold_km 10 := by
      rw [distance_between_self]
      exact arrival_threshold_pos 10
    have hnb : ¬ arrival_threshold_km 10
        ≤ distance_between 25 121.5 25 121.5 := by
      rw [distance_between_self]
      exact not_le.mpr (arrival_threshold_pos 10)
    show (feedBody (feed n) s).out = _
    simp only [feedBody, hrp, hroute, hv]
    split
    · exact ih _ rfl rfl rfl (Or.inr rfl)
    · rename_i hidx
      have hidx2 : s.current_segment_index = 0
          ∨ s.current_segment_index = 1 := by
        have h2 : ¬ (2 ≤ s.current_segment_index) := hidx
        omega
      rcases hidx2 with h0 | h0
      · simp only [h0]
        rcases hbf with hbf | hbf
        · simp only [hbf]
          split
          · exact ih _ rfl rfl rfl (Or.inr rfl)
          · rename_i hsf
            have hs0 : s.current_step_in_segment = 0 := by
              have h2 : ¬ (1 ≤ s.current_step_in_segment) := hsf
              omega
            simp only [hs0]
            split
            · exact ih _ rfl rfl rfl (Or.inl rfl)
            · rename_i hdf
              exact absurd hd0 hdf
        · simp only [hbf]
          split
          · rename_i hgf
            exact absurd hgf hnb
          · exact ih _ rfl rfl rfl (Or.inl rfl)
      · simp only [h0]
        rcases hbf with hbf | hbf
        · simp only [hbf]
          split
          · exact ih _ rfl rfl rfl (Or.inr rfl)
          · rename_i hsf
            have hs0 : s.current_step_in_segment = 0 := by
              have h2 : ¬ (1 ≤ s.current_step_in_segment) := hsf
              omega
            simp only [hs0]
            split
            · exact ih _ rfl rfl rfl (Or.inl rfl)
            · rename_i hdf
              exact absurd hd0 hdf
        · simp only [hbf]
          split
          · rename_i hgf
            exact absurd hgf hnb
          · exact ih _ rfl rfl rfl (Or.inl rfl)

/-- C7: the point-pair feed is written as direct function recursion, and on
a degenerate loop-mode polyline of near-duplicate points a single
invocation never returns: the fueled model exhausts every fuel bound. -/
theorem feed_degenerate_loop_never_returns :
    ∀ n : ℕ, (feed n degSession).out = FeedOutcome.outOfFuel := fun n =>
  feed_deg_aux n degSession rfl rfl rfl (Or.inl rfl)

end

end IDevLoc
